import Mathlib

/-!
Verification development for the SCPI instrument-control repository
(Bode plotter and spectrum analyzer cores).

The Python sources are shallowly embedded: pure numeric code becomes
functions over `ℚ` (or `ℝ` where logarithms and powers are involved),
fallible reads become `Option`, and the exception-driven control flow of
the sweep sequencers is made explicit as functions from an abstract
execution outcome to the trace of instrument commands issued.
-/

namespace BodeCore

/-- Outcome of one fetch attempt inside `read_measurement_with_polling`
(bode_core.py lines 202-225): the instrument either returns a string that
parses to a float (`value`), a string that fails to parse and raises
`ValueError` (`unparseable`), or the fetch itself raises a communication
exception (`commFailure`). -/
inductive PollResponse where
  | value : ℚ → PollResponse
  | unparseable : PollResponse
  | commFailure : PollResponse
deriving DecidableEq

/-- Embedding of `read_measurement_with_polling` (bode_core.py lines
202-225).  The wall-clock timeout is modelled as a fuel bound `fuel` on
the number of loop iterations; `rs i` is the response of the i-th fetch
attempt.  A parsed float is returned at once (overload sentinels
included, the function filters nothing); a parse failure retries; a
communication failure returns `none` immediately; exhausted fuel is the
timeout and returns `none`. -/
def read_measurement_with_polling : Nat → (Nat → PollResponse) → Option ℚ
  | 0, _ => none
  | fuel + 1, rs =>
    match rs 0 with
    | PollResponse.value v => some v
    | PollResponse.unparseable =>
        read_measurement_with_polling fuel (fun i => rs (i + 1))
    | PollResponse.commFailure => none

/-- The three polled readings of one repetition inside
`get_measurement_avg_auto`: primary peak-to-peak (CH1), secondary
peak-to-peak (CH2) and falling-edge delay, each the `Option ℚ` result of
`read_measurement_with_polling`. -/
structure Rep where
  vpp1 : Option ℚ
  vpp2 : Option ℚ
  delay : Option ℚ
deriving DecidableEq

/-- Embedding of the accumulation loop of `get_measurement_avg_auto`
(bode_core.py lines 258-278): each repetition is skipped whole when a
reading is `None`, when `vpp1 > 1e30` or `vpp2 > 1e30` or
`abs delay > 1e30`, or when `vpp1 < 1e-9`; otherwise its three readings
are appended to the three value lists. -/
def collectVals : List Rep → List ℚ × List ℚ × List ℚ
  | [] => ([], [], [])
  | r :: rest =>
    match r.vpp1, r.vpp2, r.delay with
    | some v1, some v2, some d =>
        if v1 > 1e30 ∨ v2 > 1e30 ∨ |d| > 1e30 then collectVals rest
        else if v1 < 1e-9 then collectVals rest
        else
          let c := collectVals rest
          (v1 :: c.1, v2 :: c.2.1, d :: c.2.2)
    | _, _, _ => collectVals rest

/-- Embedding of `get_measurement_avg_auto` (bode_core.py lines 228-294):
collect the accepted readings of all repetitions, return
`(none, none, none)` when any of the three lists is empty, otherwise the
three arithmetic means. -/
def get_measurement_avg_auto (reps : List Rep) :
    Option ℚ × Option ℚ × Option ℚ :=
  let c := collectVals reps
  if c.1 = [] ∨ c.2.1 = [] ∨ c.2.2 = [] then (none, none, none)
  else
    (some (c.1.sum / c.1.length),
     some (c.2.1.sum / c.2.1.length),
     some (c.2.2.sum / c.2.2.length))

/-- A repetition is accepted by `get_measurement_avg_auto` exactly when
all three readings are present, none trips the overload test of the code
(`v1 > 1e30`, `v2 > 1e30`, `|d| > 1e30`) and the primary amplitude is
not below the detectability floor `1e-9`. -/
def repAccepted (r : Rep) : Bool :=
  match r.vpp1, r.vpp2, r.delay with
  | some v1, some v2, some d =>
      decide (¬(v1 > 1e30 ∨ v2 > 1e30 ∨ |d| > 1e30) ∧ ¬(v1 < 1e-9))
  | _, _, _ => false

/-- Arithmetic mean of a list of rationals. -/
def meanQ (l : List ℚ) : ℚ := l.sum / l.length

/-- Modelled from the claim wording for the Averaging Sampler: the mean
of each quantity over exactly the accepted repetitions, `(none, none,
none)` when no repetition is accepted. -/
def avgSpec (reps : List Rep) : Option ℚ × Option ℚ × Option ℚ :=
  let acc := reps.filter repAccepted
  if acc = [] then (none, none, none)
  else
    (some (meanQ (acc.map (fun r => r.vpp1.getD 0))),
     some (meanQ (acc.map (fun r => r.vpp2.getD 0))),
     some (meanQ (acc.map (fun r => r.delay.getD 0))))

/-- Modelled from the claim wording for the Polling Reader: the answer is
determined by the first response that is not a parse failure within the
timeout window; a parsed number (overload sentinels included) is
returned, a communication failure yields `none`, and if every response
within the window is unparseable the timeout yields `none`. -/
def pollSpec (fuel : Nat) (rs : Nat → PollResponse) : Option ℚ :=
  match (List.range fuel).find?
      (fun i => decide (rs i ≠ PollResponse.unparseable)) with
  | none => none
  | some i =>
    match rs i with
    | PollResponse.value v => some v
    | _ => none

/-- Python float modulo with a positive divisor, as used by
`(-delay * freq * 360.0) % 360.0`: the remainder carries the sign of the
divisor, so `pymod a b = a - b * ⌊a / b⌋`. -/
def pymod (a b : ℚ) : ℚ := a - b * ⌊a / b⌋

/-- Embedding of the phase computation of `run_full_experiment`
(bode_core.py lines 439-441): `phase_deg = (-delay * freq * 360.0) %
360.0`, then `phase_deg -= 360.0` when the result exceeds 180. -/
def phase_deg (delay freq : ℚ) : ℚ :=
  if pymod (-delay * freq * 360) 360 > 180 then
    pymod (-delay * freq * 360) 360 - 360
  else pymod (-delay * freq * 360) 360

/-- The `VDS_TIMEBASE_MAP` dictionary of bode_core.py lines 56-67, in
ascending key order (the order of `VALID_TIMEBASES = sorted(keys)`). -/
def timebase_pairs : List (String × ℚ) :=
  [("5ns", 5e-9), ("10ns", 10e-9), ("20ns", 20e-9), ("50ns", 50e-9),
   ("100ns", 100e-9), ("200ns", 200e-9), ("500ns", 500e-9),
   ("1us", 1e-6), ("2us", 2e-6), ("5us", 5e-6),
   ("10us", 10e-6), ("20us", 20e-6), ("50us", 50e-6),
   ("100us", 100e-6), ("200us", 200e-6), ("500us", 500e-6),
   ("1ms", 1e-3), ("2ms", 2e-3), ("5ms", 5e-3),
   ("10ms", 10e-3), ("20ms", 20e-3), ("50ms", 50e-3),
   ("100ms", 100e-3), ("200ms", 200e-3), ("500ms", 500e-3),
   ("1s", 1), ("2s", 2), ("5s", 5),
   ("10s", 10), ("20s", 20), ("50s", 50), ("100s", 100)]

/-- `VALID_TIMEBASES` of bode_core.py line 68: the sorted timebase
values in seconds. -/
def VALID_TIMEBASES : List ℚ := timebase_pairs.map Prod.snd

/-- Embedding of `get_optimal_timebase` (bode_core.py lines 91-102):
scan the sorted timebases and return the first one at least
`period * 2 / 10`; fall back to the largest entry (100 s) when none
qualifies; non-positive frequencies get `1s`. -/
def get_optimal_timebase (freq : ℚ) : String × ℚ :=
  if freq ≤ 0 then ("1s", 1)
  else
    match timebase_pairs.find? (fun p => decide (1 / freq * 2 / 10 ≤ p.2)) with
    | some p => p
    | none => ("100s", 100)

/-- Exceptions that can escape the per-point loop of
`run_full_experiment`: a user interrupt, or any other exception (for
example a transport failure while talking to an instrument). -/
inductive PyExc where
  | keyboardInterrupt : PyExc
  | error : PyExc
deriving DecidableEq

/-- What `run_full_experiment` does after its per-point loop ends:
whether the generator OFF command is attempted, whether the scope
restore commands (acquisition type SAMPle and trigger mode AUTO) are
issued, and what the function hands back (`none` means the exception
propagates and nothing is returned). -/
structure RunTermination where
  genOffAttempted : Bool
  scopeRestored : Bool
  returned : Option (List (ℚ × ℚ × ℚ))
deriving DecidableEq

/-- Embedding of the termination path of `run_full_experiment`
(bode_core.py lines 449-468).  `loopExc` is the exception escaping the
`for` loop (if any) and `acc` the results accumulated before it; the
`except KeyboardInterrupt` handler swallows a user interrupt; the
`finally` block always attempts `gen.output1.set_state("OFF")` (its own
failures are swallowed); the scope-restore block sits after the
`try` statement, so it runs only when no exception is propagating, and
only if `scope._is_connected`; finally the results are returned. -/
def run_full_experiment_termination (loopExc : Option PyExc)
    (acc : List (ℚ × ℚ × ℚ)) (connected : Bool) : RunTermination :=
  let excAfterHandler : Option PyExc :=
    match loopExc with
    | some PyExc.keyboardInterrupt => none
    | e => e
  match excAfterHandler with
  | some _ =>
      { genOffAttempted := true, scopeRestored := false, returned := none }
  | none =>
      { genOffAttempted := true, scopeRestored := connected,
        returned := some acc }

/-- Embedding of `numpy.linspace(a, b, n)` over the reals: `n` evenly
spaced samples from `a` to `b` inclusive.  For `n = 1` the divisor is
zero and the single sample is `a`, matching numpy. -/
noncomputable def linspace (a b : ℝ) (n : ℕ) : List ℝ :=
  (List.range n).map
    (fun (i : ℕ) => a + (i : ℝ) * ((b - a) / ((n : ℝ) - 1)))

/-- Embedding of `numpy.logspace(a, b, n)`: ten raised to each sample of
`linspace a b n`. -/
noncomputable def logspace (a b : ℝ) (n : ℕ) : List ℝ :=
  (linspace a b n).map (fun y => (10 : ℝ) ^ y)

/-- The logarithmic frequency list of `run_full_experiment`
(bode_core.py lines 356-361): `numpy.logspace(log10 f_start, log10
f_stop, num_points)`. -/
noncomputable def freq_list_log (f_start f_stop : ℝ) (n : ℕ) : List ℝ :=
  logspace (Real.logb 10 f_start) (Real.logb 10 f_stop) n

/-- The floor clamp of `run_full_experiment` (bode_core.py line 435):
`if vpp1 < 1e-9: vpp1 = 1e-9` applied to the averaged primary
amplitude before the dB ratio. -/
noncomputable def clamped_vpp1 (vpp1 : ℝ) : ℝ :=
  if vpp1 < 1e-9 then 1e-9 else vpp1

/-- Python division: `ZeroDivisionError` (modelled as `none`) when the
divisor is zero, the quotient otherwise. -/
noncomputable def safe_div (a b : ℝ) : Option ℝ :=
  if b = 0 then none else some (a / b)

/-- Python `math.log10`: raises a domain error (modelled as `none`) for
non-positive arguments and returns a finite real otherwise; it never
produces an infinite value. -/
noncomputable def safe_log10 (x : ℝ) : Option ℝ :=
  if 0 < x then some (Real.logb 10 x) else none

/-- Embedding of the magnitude computation of `run_full_experiment`
(bode_core.py lines 435-437): `20 * math.log10(vpp2 / vpp1)` with the
primary amplitude floor-clamped first. -/
noncomputable def magnitude_db (vpp1 vpp2 : ℝ) : Option ℝ :=
  (safe_div vpp2 (clamped_vpp1 vpp1)).bind
    (fun r => (safe_log10 r).map (fun l => 20 * l))

/-- View of an optional real value inside the extended reals, used to
state that a computation never produces negative infinity. -/
def toERealOpt (o : Option ℝ) : Option EReal :=
  o.map (fun (y : ℝ) => (y : EReal))

end BodeCore

namespace SpectrumCore

/-- The scope RUN/STOP commands issued by `run_spectrum_analysis`. -/
inductive ScopeCmd where
  | run : ScopeCmd
  | stop : ScopeCmd
deriving DecidableEq

/-- Embedding of the RUN/STOP command trace of `run_spectrum_analysis`
(spectrum_core.py lines 169-242).  If the operator interrupts at the
manual gain confirmation the function returns before issuing any scope
command; otherwise `scope.set_stop()` is issued for reconfiguration; if
reading back the vertical scale or probe attenuation fails the function
returns right there; otherwise every repetition issues RUN then STOP
(regardless of whether its buffer download is accepted) and one final
RUN is issued after the loop, before any result or the no-data failure
is returned. -/
def run_spectrum_scope_cmds (interruptAtInput readbackFails : Bool)
    (num_averages : Nat) : List ScopeCmd :=
  if interruptAtInput then []
  else if readbackFails then [ScopeCmd.stop]
  else
    ScopeCmd.stop ::
      ((List.replicate num_averages [ScopeCmd.run, ScopeCmd.stop]).flatten
        ++ [ScopeCmd.run])

/-- Whether the scope is acquiring after a command list executes,
starting from running state `running0`. -/
def scope_running_after (cmds : List ScopeCmd) (running0 : Bool) : Bool :=
  cmds.foldl
    (fun _ c =>
      match c with
      | ScopeCmd.run => true
      | ScopeCmd.stop => false)
    running0

/-- Elementwise mean of the complex spectra gathered by
`run_spectrum_analysis` (spectrum_core.py line 246): bin `k` of
`np.mean(np.array(all_complex_ffts), axis=0)`. -/
noncomputable def avg_complex_fft (spectra : List (ℕ → ℂ)) (k : ℕ) : ℂ :=
  (spectra.map (fun s => s k)).sum / (spectra.length : ℂ)

/-- Magnitude of the averaged spectrum at bin `k` (spectrum_core.py line
247): the complex values are averaged first, the absolute value is taken
afterward. -/
noncomputable def fft_mag (spectra : List (ℕ → ℂ)) (k : ℕ) : ℝ :=
  Complex.abs (avg_complex_fft spectra k)

/-- Sum of the window samples, `np.sum(window)` (spectrum_core.py line
250). -/
noncomputable def window_sum (window : ℕ → ℝ) (N : ℕ) : ℝ :=
  ∑ i ∈ Finset.range N, window i

/-- Peak amplitude per bin, `v_peak = fft_mag * 2.0 / window_sum`
(spectrum_core.py line 251). -/
noncomputable def v_peak (spectra : List (ℕ → ℂ)) (window : ℕ → ℝ)
    (N k : ℕ) : ℝ :=
  fft_mag spectra k * 2 / window_sum window N

/-- RMS amplitude per bin as the code computes it (spectrum_core.py
lines 252-253): `v_rms = v_peak / sqrt 2` elementwise, after which the
zero-frequency entry is overwritten with
`abs(avg_complex_fft[0]) / window_sum`. -/
noncomputable def v_rms (spectra : List (ℕ → ℂ)) (window : ℕ → ℝ)
    (N k : ℕ) : ℝ :=
  if k = 0 then Complex.abs (avg_complex_fft spectra 0) / window_sum window N
  else v_peak spectra window N k / Real.sqrt 2

/-- dB amplitude per bin, `v_db = 20 * log10(v_rms + 1e-12)`
(spectrum_core.py lines 255-256). -/
noncomputable def v_db (spectra : List (ℕ → ℂ)) (window : ℕ → ℝ)
    (N k : ℕ) : ℝ :=
  20 * Real.logb 10 (v_rms spectra window N k + 1e-12)

/-- Modelled from the claim wording: peak amplitude is
`magnitude * 2 / window_sum` except the zero-frequency bin, which is
scaled by `window_sum` only, and RMS is `peak / sqrt 2` for every bin. -/
noncomputable def v_peak_claim (spectra : List (ℕ → ℂ)) (window : ℕ → ℝ)
    (N k : ℕ) : ℝ :=
  if k = 0 then fft_mag spectra 0 / window_sum window N
  else fft_mag spectra k * 2 / window_sum window N

/-- RMS per bin as the claim literally composes it: `v_peak_claim`
divided by the square root of two at every bin, the zero-frequency bin
included. -/
noncomputable def v_rms_claim (spectra : List (ℕ → ℂ)) (window : ℕ → ℝ)
    (N k : ℕ) : ℝ :=
  v_peak_claim spectra window N k / Real.sqrt 2

/-- Modelled from the amended claim wording: the zero-frequency special
case applies to the RMS value itself — bin 0 has RMS
`magnitude / window_sum` directly (no factor 2 and no division by the
square root of two), every other bin has RMS
`(magnitude * 2 / window_sum) / sqrt 2`. -/
noncomputable def v_rms_amended (spectra : List (ℕ → ℂ)) (window : ℕ → ℝ)
    (N k : ℕ) : ℝ :=
  if k = 0 then fft_mag spectra 0 / window_sum window N
  else (fft_mag spectra k * 2 / window_sum window N) / Real.sqrt 2

end SpectrumCore

open BodeCore SpectrumCore

lemma collectVals_eq_filter (reps : List Rep) :
    collectVals reps =
      ((reps.filter repAccepted).map (fun r => r.vpp1.getD 0),
       (reps.filter repAccepted).map (fun r => r.vpp2.getD 0),
       (reps.filter repAccepted).map (fun r => r.delay.getD 0)) := by
  induction reps with
  | nil => simp [collectVals]
  | cons r rest ih =>
    rcases r with ⟨v1, v2, d⟩
    rcases v1 with _ | v1 <;> rcases v2 with _ | v2 <;> rcases d with _ | d <;>
      simp only [collectVals, repAccepted, List.filter_cons, ih] <;> try rfl
    by_cases h1 : v1 > 1e30 ∨ v2 > 1e30 ∨ |d| > 1e30
    · simp [h1]
    · by_cases h2 : v1 < 1e-9
      · simp [h1, h2]
      · simp [h1, h2]

lemma avg_eq_avgSpec (reps : List Rep) :
    get_measurement_avg_auto reps = avgSpec reps := by
  unfold get_measurement_avg_auto avgSpec
  rw [collectVals_eq_filter]
  by_cases h : reps.filter repAccepted = []
  · simp [h]
  · simp [h, meanQ]

/-- C1: for every sequence of repetitions, `get_measurement_avg_auto`
returns the arithmetic mean of each of the three quantities over exactly
the accepted repetitions, a repetition being discarded all-or-nothing,
and returns `(none, none, none)` when no repetition is accepted. -/
theorem averaging_sampler_mean_of_accepted (reps : List Rep) :
    get_measurement_avg_auto reps = avgSpec reps :=
  avg_eq_avgSpec reps

/-- C4 counterexample: a repetition whose primary peak-to-peak reading
equals the sentinel magnitude exactly (`1e30`) is accepted by the code
and contributes to all three averages, whereas the claim says any
reading of magnitude at least `1e30` is discarded. -/
theorem overload_boundary_counterexample :
    repAccepted ⟨some 1e30, some 1, some 0⟩ = true ∧
    get_measurement_avg_auto [⟨some 1e30, some 1, some 0⟩] =
      (some 1e30, some 1, some 0) := by
  constructor
  · simp only [repAccepted, decide_eq_true_eq]
    norm_num
  · norm_num [get_measurement_avg_auto, collectVals]

lemma repAccepted_false_of (v1 v2 d : ℚ)
    (h : v1 > 1e30 ∨ v2 > 1e30 ∨ |d| > 1e30 ∨ v1 < 1e-9) :
    repAccepted ⟨some v1, some v2, some d⟩ = false := by
  simp only [repAccepted, decide_eq_false_iff_not]
  tauto

/-- C4 amended: a repetition all of whose readings arrived is discarded
whole — it contributes no quantity to any average — exactly when one of
the strict tests of the code fires: primary or secondary peak-to-peak
strictly above `1e30`, delay magnitude strictly above `1e30`, or primary
peak-to-peak strictly below `1e-9`.  The sentinel boundary itself
(`1e30` exactly) is accepted. -/
theorem invalid_rep_contributes_nothing (l1 l2 : List Rep) (v1 v2 d : ℚ)
    (h : v1 > 1e30 ∨ v2 > 1e30 ∨ |d| > 1e30 ∨ v1 < 1e-9) :
    get_measurement_avg_auto (l1 ++ ⟨some v1, some v2, some d⟩ :: l2) =
      get_measurement_avg_auto (l1 ++ l2) := by
  have hacc := repAccepted_false_of v1 v2 d h
  rw [avg_eq_avgSpec, avg_eq_avgSpec]
  unfold avgSpec
  simp [List.filter_append, List.filter_cons, hacc]

theorem invalid_rep_contributes_nothing_witness :
    ((2e30 : ℚ) > 1e30 ∨ (1 : ℚ) > 1e30 ∨ |(0 : ℚ)| > 1e30 ∨
        (2e30 : ℚ) < 1e-9) ∧
    get_measurement_avg_auto
        ([] ++ (⟨some 2e30, some 1, some 0⟩ : Rep) ::
          [⟨some 1, some 1, some 0⟩]) =
      get_measurement_avg_auto ([] ++ [⟨some 1, some 1, some 0⟩]) :=
  ⟨Or.inl (by norm_num),
   invalid_rep_contributes_nothing [] [⟨some 1, some 1, some 0⟩] 2e30 1 0
     (Or.inl (by norm_num))⟩

lemma pollSpec_succ (n : Nat) (rs : Nat → PollResponse) :
    pollSpec (n + 1) rs =
      match rs 0 with
      | PollResponse.value v => some v
      | PollResponse.unparseable => pollSpec n (fun i => rs (i + 1))
      | PollResponse.commFailure => none := by
  unfold pollSpec
  rw [List.range_succ_eq_map]
  cases h0 : rs 0 with
  | value v =>
    rw [List.find?_cons_of_pos _ (by simp [h0])]
    simp [h0]
  | unparseable =>
    rw [List.find?_cons_of_neg _ (by simp [h0]), List.find?_map]
    have hcomp :
        ((fun i => decide (rs i ≠ PollResponse.unparseable)) ∘ Nat.succ) =
          (fun i => decide (rs (i + 1) ≠ PollResponse.unparseable)) := rfl
    rw [hcomp]
    cases hf : (List.range n).find?
        (fun i => decide (rs (i + 1) ≠ PollResponse.unparseable)) with
    | none => simp only [hf, Option.map_none']
    | some j => simp only [hf, Option.map_some']
  | commFailure =>
    rw [List.find?_cons_of_pos _ (by simp [h0])]
    simp [h0]

/-- C2: the Polling Reader is fully characterized by the first response
within the timeout window that is not a parse failure — a parsed number
is returned as-is (overload sentinels of magnitude at least 1e30
included, nothing is filtered), a communication failure aborts at once
with `none`, and if every response within the window is unparseable the
timeout yields `none`. -/
theorem polling_reader_first_parseable (fuel : Nat)
    (rs : Nat → PollResponse) :
    read_measurement_with_polling fuel rs = pollSpec fuel rs := by
  induction fuel generalizing rs with
  | zero => simp [read_measurement_with_polling, pollSpec]
  | succ n ih =>
    rw [pollSpec_succ]
    unfold read_measurement_with_polling
    cases h0 : rs 0 <;> simp [h0, ih]

/-- C3 counterexample: when an exception other than a user interrupt
escapes the per-point loop, `run_full_experiment` does attempt the
generator OFF command in its `finally` block, but the exception then
propagates past the scope-restore block, so the scope is neither put
back in automatic trigger mode nor in sample acquisition type, and no
results are returned — contradicting the claim that the scope restore
happens on every termination path. -/
theorem sweep_cleanup_counterexample :
    (run_full_experiment_termination (some PyExc.error) [(1, 2, 3)]
        true).genOffAttempted = true ∧
    (run_full_experiment_termination (some PyExc.error) [(1, 2, 3)]
        true).scopeRestored = false ∧
    (run_full_experiment_termination (some PyExc.error) [(1, 2, 3)]
        true).returned = none :=
  ⟨rfl, rfl, rfl⟩

/-- C3 amended: on every termination path the generator OFF command is
attempted; the accumulated results are returned — and the scope restored
to automatic trigger mode and sample acquisition type, provided it is
still connected — exactly when the loop ended normally or through a user
interrupt; an unexpected exception propagates after the generator OFF
attempt, with no scope restore and no returned results. -/
theorem sweep_cleanup_amended (loopExc : Option PyExc)
    (acc : List (ℚ × ℚ × ℚ)) (connected : Bool) :
    (run_full_experiment_termination loopExc acc connected).genOffAttempted =
        true ∧
    (run_full_experiment_termination loopExc acc connected).returned =
      (if loopExc = some PyExc.error then none else some acc) ∧
    (run_full_experiment_termination loopExc acc connected).scopeRestored =
      (if loopExc = some PyExc.error then false else connected) := by
  rcases loopExc with _ | e
  · exact ⟨rfl, rfl, rfl⟩
  · cases e <;> exact ⟨rfl, rfl, rfl⟩

lemma pymod_bounds (x : ℚ) : 0 ≤ pymod x 360 ∧ pymod x 360 < 360 := by
  have h1 : ((⌊x / 360⌋ : ℚ)) ≤ x / 360 := Int.floor_le _
  have h2 : x / 360 < (⌊x / 360⌋ : ℚ) + 1 := Int.lt_floor_add_one _
  have h360 : (360 : ℚ) * (x / 360) = x := by field_simp
  have h1' : 360 * ((⌊x / 360⌋ : ℚ)) ≤ x := by
    have := mul_le_mul_of_nonneg_left h1 (by norm_num : (0 : ℚ) ≤ 360)
    linarith [h360]
  have h2' : x < 360 * ((⌊x / 360⌋ : ℚ)) + 360 := by
    have := mul_lt_mul_of_pos_left h2 (by norm_num : (0 : ℚ) < 360)
    linarith [h360]
  unfold pymod
  constructor <;> linarith

/-- C5: for every averaged delay and positive frequency the recorded
phase lies in the half-open interval (-180, 180] and differs from the
raw phase `-delay * freq * 360` by an integer multiple of 360 (that is,
it is the Python modulo 360 mapped into the interval by subtracting 360
when above 180); in particular a raw phase of exactly 180 degrees is
recorded as 180 and a raw phase of 181 degrees as -179. -/
theorem phase_wrap (delay freq : ℚ) (_hf : 0 < freq) :
    (-180 < phase_deg delay freq ∧ phase_deg delay freq ≤ 180) ∧
    (∃ k : ℤ, -delay * freq * 360 - phase_deg delay freq = 360 * k) ∧
    phase_deg (-1/2) 1 = 180 ∧
    phase_deg (-181/360) 1 = -179 := by
  have hb := pymod_bounds (-delay * freq * 360)
  have hval : pymod (-delay * freq * 360) 360 =
      -delay * freq * 360 - 360 * ⌊-delay * freq * 360 / 360⌋ := rfl
  refine ⟨?_, ?_, ?_, ?_⟩
  · unfold phase_deg
    split <;> constructor <;> linarith [hb.1, hb.2]
  · unfold phase_deg
    split
    · exact ⟨⌊-delay * freq * 360 / 360⌋ + 1, by push_cast; linarith [hval]⟩
    · exact ⟨⌊-delay * freq * 360 / 360⌋, by linarith [hval]⟩
  · norm_num [phase_deg, pymod]
  · norm_num [phase_deg, pymod]

theorem phase_wrap_witness :
    (0 : ℚ) < 1 ∧
    ((-180 < phase_deg 0 1 ∧ phase_deg 0 1 ≤ 180) ∧
     (∃ k : ℤ, -(0 : ℚ) * 1 * 360 - phase_deg 0 1 = 360 * k) ∧
     phase_deg (-1/2) 1 = 180 ∧
     phase_deg (-181/360) 1 = -179) :=
  ⟨by norm_num, phase_wrap 0 1 (by norm_num)⟩

lemma find?_sorted_least (c : ℚ) :
    ∀ (l : List ℚ), l.Pairwise (· ≤ ·) →
      ∀ x : ℚ, l.find? (fun y => decide (c ≤ y)) = some x →
        c ≤ x ∧ x ∈ l ∧ ∀ u ∈ l, c ≤ u → x ≤ u := by
  intro l
  induction l with
  | nil => intro _ x hx; simp at hx
  | cons a t ih =>
    intro hsort x hx
    rw [List.pairwise_cons] at hsort
    by_cases hpa : c ≤ a
    · rw [List.find?_cons_of_pos _ (by simpa using hpa)] at hx
      obtain rfl : a = x := by simpa using hx
      refine ⟨hpa, List.mem_cons_self _ _, ?_⟩
      intro u hu _
      rcases List.mem_cons.mp hu with rfl | hu
      · exact le_rfl
      · exact hsort.1 u hu
    · rw [List.find?_cons_of_neg _ (by simpa using hpa)] at hx
      obtain ⟨h1, h2, h3⟩ := ih hsort.2 x hx
      refine ⟨h1, List.mem_cons_of_mem _ h2, ?_⟩
      intro u hu hcu
      rcases List.mem_cons.mp hu with rfl | hu
      · exact absurd hcu hpa
      · exact h3 u hu hcu

lemma valid_timebases_sorted : VALID_TIMEBASES.Pairwise (· ≤ ·) := by
  have hchain : VALID_TIMEBASES.Chain' (· ≤ ·) := by
    norm_num [VALID_TIMEBASES, timebase_pairs, List.chain'_cons]
  exact List.chain'_iff_pairwise.mp hchain

lemma valid_timebases_le_100 : ∀ u ∈ VALID_TIMEBASES, u ≤ 100 := by
  intro u hu
  simp only [VALID_TIMEBASES, timebase_pairs, List.map_cons, List.map_nil]
    at hu
  fin_cases hu <;> norm_num

lemma valid_timebases_ge_min : ∀ u ∈ VALID_TIMEBASES, 5e-9 ≤ u := by
  intro u hu
  simp only [VALID_TIMEBASES, timebase_pairs, List.map_cons, List.map_nil]
    at hu
  fin_cases hu <;> norm_num

lemma valid_find?_eq (c : ℚ) :
    VALID_TIMEBASES.find? (fun y => decide (c ≤ y)) =
      (timebase_pairs.find? (fun p => decide (c ≤ p.2))).map Prod.snd := by
  unfold VALID_TIMEBASES
  rw [List.find?_map]
  rfl

/-- C6: for every positive frequency, `get_optimal_timebase` returns a
member of the enumerated timebase set which is the least one at least
the ideal value `2 * period / 10`; when the ideal value is at or below
the smallest enumerated timebase the smallest (5 ns) is returned, and
when it exceeds the largest enumerated timebase the largest (100 s) is
returned — the result is clamped, never unbounded. -/
theorem optimal_timebase_least (freq : ℚ) (h : 0 < freq) :
    (get_optimal_timebase freq).2 ∈ VALID_TIMEBASES ∧
    (1 / freq * 2 / 10 ≤ 100 →
      1 / freq * 2 / 10 ≤ (get_optimal_timebase freq).2 ∧
      ∀ u ∈ VALID_TIMEBASES, 1 / freq * 2 / 10 ≤ u →
        (get_optimal_timebase freq).2 ≤ u) ∧
    (100 < 1 / freq * 2 / 10 → (get_optimal_timebase freq).2 = 100) ∧
    (1 / freq * 2 / 10 ≤ 5e-9 → (get_optimal_timebase freq).2 = 5e-9) := by
  have hnle : ¬ freq ≤ 0 := not_le.mpr h
  unfold get_optimal_timebase
  rw [if_neg hnle]
  cases hfind :
      timebase_pairs.find? (fun p => decide (1 / freq * 2 / 10 ≤ p.2)) with
  | some p =>
    have hv : VALID_TIMEBASES.find?
        (fun y => decide (1 / freq * 2 / 10 ≤ y)) = some p.2 := by
      rw [valid_find?_eq, hfind]
      rfl
    obtain ⟨hcx, hmem, hmin⟩ :=
      find?_sorted_least _ _ valid_timebases_sorted _ hv
    refine ⟨hmem, fun _ => ⟨hcx, hmin⟩, ?_, ?_⟩
    · intro hgt
      exact absurd (le_trans hcx (valid_timebases_le_100 _ hmem))
        (not_le.mpr hgt)
    · intro hle
      have hmem5 : (5e-9 : ℚ) ∈ VALID_TIMEBASES := by
        simp [VALID_TIMEBASES, timebase_pairs]
      exact le_antisymm (hmin _ hmem5 hle) (valid_timebases_ge_min _ hmem)
  | none =>
    have hnone := List.find?_eq_none.mp hfind
    have h100 : ¬ (1 / freq * 2 / 10 ≤ 100) := by
      have := hnone ("100s", (100 : ℚ)) (by simp [timebase_pairs])
      simpa using this
    refine ⟨?_, ?_, ?_, ?_⟩
    · simp [VALID_TIMEBASES, timebase_pairs]
    · intro hc
      exact absurd hc h100
    · intro _
      rfl
    · intro hle
      exact absurd (le_trans hle (by norm_num)) h100

theorem optimal_timebase_least_witness :
    (0 : ℚ) < 1 ∧
    ((get_optimal_timebase 1).2 ∈ VALID_TIMEBASES ∧
     ((1 : ℚ) / 1 * 2 / 10 ≤ 100 →
       (1 : ℚ) / 1 * 2 / 10 ≤ (get_optimal_timebase 1).2 ∧
       ∀ u ∈ VALID_TIMEBASES, (1 : ℚ) / 1 * 2 / 10 ≤ u →
         (get_optimal_timebase 1).2 ≤ u) ∧
     (100 < (1 : ℚ) / 1 * 2 / 10 → (get_optimal_timebase 1).2 = 100) ∧
     ((1 : ℚ) / 1 * 2 / 10 ≤ 5e-9 → (get_optimal_timebase 1).2 = 5e-9)) :=
  ⟨by norm_num, optimal_timebase_least 1 (by norm_num)⟩

/-- C7 counterexample: the configuration `f_start = 1`, `f_stop = 10`,
`num_points = 1` is within the bounds the claim quantifies over
(`f_start > 0`, `f_stop > f_start`), yet the generated logarithmic
frequency list is `[1]`, whose last entry is `f_start`, not `f_stop`. -/
theorem log_freq_list_counterexample :
    (0 : ℝ) < 1 ∧ (1 : ℝ) < 10 ∧
    freq_list_log 1 10 1 = [(1 : ℝ)] ∧
    (freq_list_log 1 10 1).getLast? ≠ some 10 := by
  have hl : freq_list_log 1 10 1 = [(1 : ℝ)] := by
    have hr : List.range 1 = [0] := rfl
    simp [freq_list_log, logspace, linspace, hr]
  refine ⟨by norm_num, by norm_num, hl, ?_⟩
  rw [hl]
  simp

lemma linspace_step_lt (a b : ℝ) (n i : ℕ) (hab : a < b) (hn : 2 ≤ n) :
    a + (i : ℝ) * ((b - a) / ((n : ℝ) - 1)) <
      a + ((i + 1 : ℕ) : ℝ) * ((b - a) / ((n : ℝ) - 1)) := by
  have hd : (0 : ℝ) < (n : ℝ) - 1 := by
    have : (2 : ℝ) ≤ (n : ℝ) := by exact_mod_cast hn
    linarith
  have hstep : (0 : ℝ) < (b - a) / ((n : ℝ) - 1) :=
    div_pos (by linarith) hd
  have hi : ((i : ℝ)) < ((i + 1 : ℕ) : ℝ) := by
    push_cast
    linarith
  have := mul_lt_mul_of_pos_right hi hstep
  linarith

/-- C7 amended: for every logarithmic configuration with `f_start > 0`,
`f_stop > f_start` and at least two points, the generated frequency list
has exactly `num_points` entries, is strictly increasing, and its first
and last entries equal `f_start` and `f_stop` exactly (in the real-number
model; with one point the list is `[f_start]` and its last entry is not
`f_stop`, so two points are required). -/
theorem log_freq_list_amended (s e : ℝ) (n : ℕ) (hs : 0 < s)
    (hse : s < e) (hn : 2 ≤ n) :
    (freq_list_log s e n).length = n ∧
    (freq_list_log s e n).Chain' (· < ·) ∧
    (freq_list_log s e n).head? = some s ∧
    (freq_list_log s e n).getLast? = some e := by
  have he : 0 < e := hs.trans hse
  have hab : Real.logb 10 s < Real.logb 10 e :=
    Real.logb_lt_logb (by norm_num) hs hse
  refine ⟨?_, ?_, ?_, ?_⟩
  · simp [freq_list_log, logspace, linspace]
  · obtain ⟨m, rfl⟩ : ∃ m, n = m + 1 := ⟨n - 1, by omega⟩
    unfold freq_list_log logspace linspace
    rw [List.map_map, List.chain'_map, List.chain'_range_succ]
    intro i him
    rw [Function.comp_apply, Function.comp_apply,
      Real.rpow_lt_rpow_left_iff (by norm_num : (1 : ℝ) < 10)]
    exact linspace_step_lt _ _ _ i hab hn
  · obtain ⟨m, rfl⟩ : ∃ m, n = m + 1 := ⟨n - 1, by omega⟩
    unfold freq_list_log logspace linspace
    rw [List.range_succ_eq_map]
    simp only [List.map_cons, List.head?_cons, Nat.cast_zero, zero_mul,
      add_zero]
    rw [Real.rpow_logb (by norm_num) (by norm_num) hs]
  · obtain ⟨m, rfl⟩ : ∃ m, n = m + 1 := ⟨n - 1, by omega⟩
    have hm : 1 ≤ m := by omega
    have hmr : ((m : ℝ)) ≠ 0 := by
      have : (1 : ℝ) ≤ (m : ℝ) := by exact_mod_cast hm
      linarith
    unfold freq_list_log logspace linspace
    rw [List.range_succ, List.map_append, List.map_append]
    simp only [List.map_cons, List.map_nil, List.getLast?_concat]
    have harg : Real.logb 10 s + (m : ℝ) *
        ((Real.logb 10 e - Real.logb 10 s) / (((m + 1 : ℕ) : ℝ) - 1)) =
        Real.logb 10 e := by
      push_cast
      field_simp
    rw [harg, Real.rpow_logb (by norm_num) (by norm_num) he]

theorem log_freq_list_amended_witness :
    (0 : ℝ) < 1 ∧ (1 : ℝ) < 2 ∧ 2 ≤ 2 ∧
    ((freq_list_log 1 2 2).length = 2 ∧
     (freq_list_log 1 2 2).Chain' (· < ·) ∧
     (freq_list_log 1 2 2).head? = some 1 ∧
     (freq_list_log 1 2 2).getLast? = some 2) :=
  ⟨one_pos, one_lt_two, le_refl 2, log_freq_list_amended 1 2 2 one_pos one_lt_two (le_refl 2)⟩

lemma sqrt_two_gt_one : (1 : ℝ) < Real.sqrt 2 := by
  rw [show (1 : ℝ) = Real.sqrt 1 from Real.sqrt_one.symm]
  exact Real.sqrt_lt_sqrt (by norm_num) (by norm_num)

/-- C8 counterexample: with one repetition whose spectrum is the
constant 2 and a rectangular window of length 2, the code computes the
zero-frequency RMS as magnitude divided by the window sum (value 1),
while the pipeline literally described by the claim — DC peak scaled by
the window sum only, then RMS = peak divided by the square root of two —
gives 1 / sqrt 2; the two disagree. -/
theorem spectrum_dc_bin_counterexample :
    v_rms [fun _ => (2 : ℂ)] (fun _ => (1 : ℝ)) 2 0 = 1 ∧
    v_rms_claim [fun _ => (2 : ℂ)] (fun _ => (1 : ℝ)) 2 0 =
      1 / Real.sqrt 2 ∧
    v_rms [fun _ => (2 : ℂ)] (fun _ => (1 : ℝ)) 2 0 ≠
      v_rms_claim [fun _ => (2 : ℂ)] (fun _ => (1 : ℝ)) 2 0 := by
  have habs : Complex.abs (avg_complex_fft [fun _ => (2 : ℂ)] 0) = 2 := by
    unfold avg_complex_fft
    simp
  have hws : window_sum (fun _ => (1 : ℝ)) 2 = 2 := by
    unfold window_sum
    simp [Finset.sum_range_succ]
  have h1 : v_rms [fun _ => (2 : ℂ)] (fun _ => (1 : ℝ)) 2 0 = 1 := by
    unfold v_rms
    rw [if_pos rfl, habs, hws]
    norm_num
  have h2 : v_rms_claim [fun _ => (2 : ℂ)] (fun _ => (1 : ℝ)) 2 0 =
      1 / Real.sqrt 2 := by
    unfold v_rms_claim v_peak_claim fft_mag
    rw [if_pos rfl, habs, hws]
    norm_num
  refine ⟨h1, h2, ?_⟩
  rw [h1, h2]
  have hlt : 1 / Real.sqrt 2 < 1 := by
    rw [div_lt_one (lt_trans one_pos sqrt_two_gt_one)]
    exact sqrt_two_gt_one
  intro heq
  rw [← heq] at hlt
  exact lt_irrefl _ hlt

/-- C8 amended: for every non-empty collection of accepted spectra and
every retained bin (first half), the result averages the complex spectra
elementwise and takes the magnitude afterward; the RMS of every nonzero
bin is `(magnitude * 2 / window_sum) / sqrt 2`, while the zero-frequency
bin has RMS `magnitude / window_sum` directly (the DC special case
applies to the RMS value, with no factor 2 and no division by the square
root of two); dB is `20 * log10(rms + 1e-12)` for every bin. -/
theorem spectrum_postprocess_amended (spectra : List (ℕ → ℂ))
    (window : ℕ → ℝ) (N k : ℕ) (_hne : spectra ≠ []) (_hk : k < N / 2) :
    v_rms spectra window N k = v_rms_amended spectra window N k ∧
    v_db spectra window N k =
      20 * Real.logb 10 (v_rms_amended spectra window N k + 1e-12) ∧
    fft_mag spectra k =
      Complex.abs ((spectra.map (fun s => s k)).sum /
        (spectra.length : ℂ)) := by
  have h1 : v_rms spectra window N k = v_rms_amended spectra window N k := by
    unfold v_rms v_rms_amended v_peak fft_mag
    rfl
  refine ⟨h1, ?_, rfl⟩
  unfold v_db
  rw [h1]

theorem spectrum_postprocess_amended_witness :
    ([fun _ => (2 : ℂ)] ≠ ([] : List (ℕ → ℂ))) ∧ 0 < 2 / 2 ∧
    (v_rms [fun _ => (2 : ℂ)] (fun _ => (1 : ℝ)) 2 0 =
       v_rms_amended [fun _ => (2 : ℂ)] (fun _ => (1 : ℝ)) 2 0 ∧
     v_db [fun _ => (2 : ℂ)] (fun _ => (1 : ℝ)) 2 0 =
       20 * Real.logb 10
         (v_rms_amended [fun _ => (2 : ℂ)] (fun _ => (1 : ℝ)) 2 0 + 1e-12) ∧
     fft_mag [fun _ => (2 : ℂ)] 0 =
       Complex.abs (([fun _ => (2 : ℂ)].map (fun s => s 0)).sum /
         (([fun _ => (2 : ℂ)] : List (ℕ → ℂ)).length : ℂ))) :=
  ⟨by simp, by decide,
   spectrum_postprocess_amended [fun _ => (2 : ℂ)] (fun _ => (1 : ℝ)) 2 0
     (by simp) (by decide)⟩

/-- C9 counterexample: when reading back the vertical scale or probe
attenuation fails, `run_spectrum_analysis` has already issued STOP and
returns without ever issuing RUN, leaving the scope stopped — the claim
says a RUN command is issued before the function returns on this exit
path too. -/
theorem spectrum_run_counterexample :
    run_spectrum_scope_cmds false true 3 = [ScopeCmd.stop] ∧
    ScopeCmd.run ∉ run_spectrum_scope_cmds false true 3 ∧
    scope_running_after (run_spectrum_scope_cmds false true 3) true =
      false := by
  refine ⟨rfl, ?_, rfl⟩
  decide

/-- C9 amended: the scope ends up acquiring exactly on the exits that
reach the acquisition loop — on those the last scope command issued is
RUN (also when zero repetitions were accepted); an interrupt at the
manual gain step issues no scope command at all, leaving the scope in
whatever state it entered with; a scale/probe read-back failure leaves
the scope stopped, with no RUN issued before returning. -/
theorem spectrum_run_amended (i r b : Bool) (n : Nat) :
    scope_running_after (run_spectrum_scope_cmds i r n) b =
      (if i then b else if r then false else true) ∧
    (run_spectrum_scope_cmds false false n).getLast? = some ScopeCmd.run ∧
    run_spectrum_scope_cmds true r n = [] ∧
    run_spectrum_scope_cmds false true n = [ScopeCmd.stop] := by
  refine ⟨?_, ?_, rfl, rfl⟩
  · cases i with
    | true => rfl
    | false =>
      cases r with
      | true => rfl
      | false =>
        simp only [run_spectrum_scope_cmds, Bool.false_eq_true, if_false,
          scope_running_after, List.foldl_cons, List.foldl_append,
          List.foldl_cons, List.foldl_nil]
  · rw [show run_spectrum_scope_cmds false false n =
        (ScopeCmd.stop ::
          (List.replicate n [ScopeCmd.run, ScopeCmd.stop]).flatten) ++
          [ScopeCmd.run] from rfl]
    exact List.getLast?_concat _

/-- C10: the averaged primary amplitude is floor-clamped to exactly
`1e-9` (it becomes the maximum of itself and `1e-9`), so the divisor of
the dB ratio is at least `1e-9` and nonzero — the division never raises
— and every dB value the magnitude computation produces is a finite
real, never negative infinity. -/
theorem magnitude_clamp_safe (vpp1 vpp2 : ℝ) :
    clamped_vpp1 vpp1 = max vpp1 1e-9 ∧
    (1e-9 : ℝ) ≤ clamped_vpp1 vpp1 ∧
    clamped_vpp1 vpp1 ≠ 0 ∧
    safe_div vpp2 (clamped_vpp1 vpp1) =
      some (vpp2 / clamped_vpp1 vpp1) ∧
    toERealOpt (magnitude_db vpp1 vpp2) ≠ some ⊥ := by
  have hmax : clamped_vpp1 vpp1 = max vpp1 1e-9 := by
    unfold clamped_vpp1
    rcases lt_or_le vpp1 (1e-9 : ℝ) with h | h
    · rw [if_pos h, max_eq_right h.le]
    · rw [if_neg (not_lt.mpr h), max_eq_left h]
  have hle : (1e-9 : ℝ) ≤ clamped_vpp1 vpp1 := by
    rw [hmax]
    exact le_max_right _ _
  have hpos : (0 : ℝ) < clamped_vpp1 vpp1 :=
    lt_of_lt_of_le (by norm_num) hle
  have hne : clamped_vpp1 vpp1 ≠ 0 := hpos.ne'
  have hdiv : safe_div vpp2 (clamped_vpp1 vpp1) =
      some (vpp2 / clamped_vpp1 vpp1) := by
    unfold safe_div
    rw [if_neg hne]
  refine ⟨hmax, hle, hne, hdiv, ?_⟩
  unfold magnitude_db
  rw [hdiv]
  show toERealOpt ((safe_log10 (vpp2 / clamped_vpp1 vpp1)).map
    fun l => 20 * l) ≠ some ⊥
  unfold safe_log10
  by_cases hr : 0 < vpp2 / clamped_vpp1 vpp1
  · rw [if_pos hr]
    simp only [toERealOpt, Option.map_some', ne_eq, Option.some.injEq]
    exact EReal.coe_ne_bot _
  · rw [if_neg hr]
    simp [toERealOpt]
